import Mathlib

/-!
Verification development for the EnSync Node SDK.

The definitions below are a shallow embedding of the SDK's source:

* the end-to-end encryption module (`ecc-crypto`): `encryptEd25519`,
  `decryptEd25519`, `encryptMessageKey`, `decryptMessageKey`,
  `encryptWithMessageKey`, `decryptWithMessageKey`, `hybridEncrypt`,
  `hybridDecrypt`;
* the WebSocket client (`EnSyncEngine` in the ws transport file):
  pending-request bookkeeping (`#sendMessage` / `#handleMessage`),
  the `+RECORD` dispatch loop, `#deferEvent`, `#handleClose`,
  `#on` / `#unsubscribe`, `#decryptPayload`;
* the gRPC client (`packages/ensync-client-sdk/grpc.js`): the
  subscription-stream `data` callback, `#processMessage`, `#deferMessage`,
  `#on`, `_publishInternal` (encryption selection).

The `tweetnacl` library is an external collaborator of the repository; it
is embedded symbolically as an ideal authenticated-encryption scheme with
Diffie-Hellman key agreement: a ciphertext records the message, the nonce
and the derived shared secret, and opening succeeds exactly when nonce and
shared secret match.  Randomness (`nacl.randomBytes`, `nacl.box.keyPair`)
is made explicit as a natural-number entropy counter threaded through the
encrypting functions.  Base64 encoding of keys is injective, so maps that
the JavaScript keys by a base64 public-key string are keyed here by the
public-key value itself.
-/

/-! ## JavaScript object / Map semantics

A JavaScript object used as a dictionary (and likewise a `Map`) keeps one
binding per key in insertion order; assigning to an existing key replaces
the value in place, assigning to a fresh key appends. -/

/-- Property assignment `m[k] = v` on a JavaScript object / `Map.set`:
replace in place when the key is present, append otherwise. -/
def objInsert {κ ν : Type} [DecidableEq κ] (m : List (κ × ν)) (k : κ) (v : ν) :
    List (κ × ν) :=
  if m.any (fun kv => kv.1 = k) then
    m.map (fun kv => if kv.1 = k then (k, v) else kv)
  else
    m ++ [(k, v)]

/-- Property lookup `m[k]`: the first (hence, given `objInsert`, only)
binding of `k`. -/
def objGet {κ ν : Type} [DecidableEq κ] (m : List (κ × ν)) (k : κ) : Option ν :=
  match m with
  | [] => none
  | kv :: rest => if kv.1 = k then some kv.2 else objGet rest k

/-! ## Key material

Ed25519 keys are identified by the seed of their key pair; a valid key
pair shares one seed between its public and secret halves.  Curve25519
keys arise either by converting an Ed25519 key (`ed2curve`) or as a fresh
ephemeral `nacl.box.keyPair`. -/

/-- An Ed25519 public key (the SDK passes these around base64-encoded). -/
inductive EdPublicKey : Type
  | mk (seed : Nat)
  deriving DecidableEq, Repr

/-- An Ed25519 secret key. -/
inductive EdSecretKey : Type
  | mk (seed : Nat)
  deriving DecidableEq, Repr

/-- A Curve25519 (X25519) public key. -/
inductive CurvePublicKey : Type
  | mk (seed : Nat)
  deriving DecidableEq, Repr

/-- A Curve25519 (X25519) secret key. -/
inductive CurveSecretKey : Type
  | mk (seed : Nat)
  deriving DecidableEq, Repr

/-- `ed2curve.convertPublicKey`: deterministic Ed25519 → Curve25519
conversion of a public key. -/
def ed25519PublicKeyToCurve25519 : EdPublicKey → CurvePublicKey
  | .mk s => .mk s

/-- `ed2curve.convertSecretKey`: deterministic Ed25519 → Curve25519
conversion of a secret key. -/
def ed25519SecretKeyToCurve25519 : EdSecretKey → CurveSecretKey
  | .mk s => .mk s

/-- The ECDH shared secret between a public and a secret Curve25519 key,
as the unordered pair of the two seeds; `dhShared (pub a) (sec b) =
dhShared (pub b) (sec a)` captures Diffie-Hellman commutativity. -/
def dhShared : CurvePublicKey → CurveSecretKey → Nat × Nat
  | .mk a, .mk b => (min a b, max a b)

/-- A `nacl.box` ciphertext: authenticated encryption of `msg` under a
nonce and the ECDH shared secret. -/
structure BoxCiphertext (α : Type) : Type where
  msg : α
  nonce : Nat
  shared : Nat × Nat
  deriving DecidableEq, Repr

/-- `nacl.box message nonce theirPublicKey mySecretKey`. -/
def naclBox {α : Type} (m : α) (nonce : Nat) (theirPub : CurvePublicKey)
    (mySec : CurveSecretKey) : BoxCiphertext α :=
  { msg := m, nonce := nonce, shared := dhShared theirPub mySec }

/-- `nacl.box.open ciphertext nonce theirPublicKey mySecretKey`: returns
the plaintext exactly when the nonce and the recomputed shared secret
match the ones the box was created with, `null` (here `none`) otherwise. -/
def naclBoxOpen {α : Type} (c : BoxCiphertext α) (nonce : Nat)
    (theirPub : CurvePublicKey) (mySec : CurveSecretKey) : Option α :=
  if c.nonce = nonce ∧ c.shared = dhShared theirPub mySec then some c.msg else none

/-- A `nacl.secretbox` ciphertext: authenticated symmetric encryption of
`msg` under a nonce and a 32-byte key (represented by its entropy id). -/
structure SecretboxCiphertext (α : Type) : Type where
  msg : α
  nonce : Nat
  key : Nat
  deriving DecidableEq, Repr

/-- `nacl.secretbox message nonce key`. -/
def naclSecretbox {α : Type} (m : α) (nonce : Nat) (key : Nat) :
    SecretboxCiphertext α :=
  { msg := m, nonce := nonce, key := key }

/-- `nacl.secretbox.open ciphertext nonce key`. -/
def naclSecretboxOpen {α : Type} (c : SecretboxCiphertext α) (nonce : Nat)
    (key : Nat) : Option α :=
  if c.nonce = nonce ∧ c.key = key then some c.msg else none

/-- `nacl.box.keyPair()`: a fresh ephemeral Curve25519 key pair drawn from
the entropy counter. -/
def naclBoxKeyPair (rng : Nat) : (CurvePublicKey × CurveSecretKey) × Nat :=
  ((.mk rng, .mk rng), rng + 1)

/-- `nacl.randomBytes(nonceLength)`: a fresh random nonce. -/
def naclRandomNonce (rng : Nat) : Nat × Nat :=
  (rng, rng + 1)

/-- `generateMessageKey()`: a fresh random 32-byte symmetric key. -/
def generateMessageKey (rng : Nat) : Nat × Nat :=
  (rng, rng + 1)

/-- Failures thrown by the crypto module. -/
inductive CryptoError : Type
  | recipientNotFound
  | authFailed
  deriving DecidableEq, Repr

/-! ## Crypto module (`ecc-crypto`) -/

/-- The direct (single-recipient) envelope `{ nonce, ciphertext,
ephemeralPublicKey }` returned by `encryptEd25519`. -/
structure DirectEnvelope : Type where
  nonce : Nat
  ciphertext : BoxCiphertext String
  ephemeralPublicKey : CurvePublicKey
  deriving DecidableEq, Repr

/-- `encryptEd25519(message, recipientEd25519PublicKey)`: fresh ephemeral
key pair, convert the recipient key, fresh nonce, box the message. -/
def encryptEd25519 (message : String) (recipientEd25519PublicKey : EdPublicKey)
    (rng : Nat) : DirectEnvelope × Nat :=
  let (ephemeralKeyPair, rng1) := naclBoxKeyPair rng
  let recipientCurve25519PublicKey :=
    ed25519PublicKeyToCurve25519 recipientEd25519PublicKey
  let (nonce, rng2) := naclRandomNonce rng1
  let ciphertext :=
    naclBox message nonce recipientCurve25519PublicKey ephemeralKeyPair.2
  ({ nonce := nonce, ciphertext := ciphertext,
     ephemeralPublicKey := ephemeralKeyPair.1 }, rng2)

/-- `decryptEd25519(encrypted, recipientEd25519SecretKey)`: convert the
secret key and open the box; throws on authentication failure. -/
def decryptEd25519 (encrypted : DirectEnvelope)
    (recipientEd25519SecretKey : EdSecretKey) : Except CryptoError String :=
  let recipientCurve25519SecretKey :=
    ed25519SecretKeyToCurve25519 recipientEd25519SecretKey
  match naclBoxOpen encrypted.ciphertext encrypted.nonce
      encrypted.ephemeralPublicKey recipientCurve25519SecretKey with
  | some plaintext => .ok plaintext
  | none => .error .authFailed

/-- The `{ nonce, ciphertext }` envelope returned by
`encryptWithMessageKey`. -/
structure EncryptedPayloadEnvelope : Type where
  nonce : Nat
  ciphertext : SecretboxCiphertext String
  deriving DecidableEq, Repr

/-- `encryptWithMessageKey(message, messageKey)`: fresh nonce, secretbox. -/
def encryptWithMessageKey (message : String) (messageKey : Nat) (rng : Nat) :
    EncryptedPayloadEnvelope × Nat :=
  let (nonce, rng1) := naclRandomNonce rng
  ({ nonce := nonce, ciphertext := naclSecretbox message nonce messageKey }, rng1)

/-- `decryptWithMessageKey(encrypted, messageKey)`. -/
def decryptWithMessageKey (encrypted : EncryptedPayloadEnvelope)
    (messageKey : Nat) : Except CryptoError String :=
  match naclSecretboxOpen encrypted.ciphertext encrypted.nonce messageKey with
  | some plaintext => .ok plaintext
  | none => .error .authFailed

/-- The `{ nonce, encryptedKey, ephemeralPublicKey }` envelope returned by
`encryptMessageKey`. -/
structure EncryptedKeyEnvelope : Type where
  nonce : Nat
  encryptedKey : BoxCiphertext Nat
  ephemeralPublicKey : CurvePublicKey
  deriving DecidableEq, Repr

/-- `encryptMessageKey(messageKey, recipientEd25519PublicKey)`: fresh
ephemeral key pair, convert the recipient key, fresh nonce, box the
message key. -/
def encryptMessageKey (messageKey : Nat) (recipientEd25519PublicKey : EdPublicKey)
    (rng : Nat) : EncryptedKeyEnvelope × Nat :=
  let (ephemeralKeyPair, rng1) := naclBoxKeyPair rng
  let recipientCurve25519PublicKey :=
    ed25519PublicKeyToCurve25519 recipientEd25519PublicKey
  let (nonce, rng2) := naclRandomNonce rng1
  let encryptedKey :=
    naclBox messageKey nonce recipientCurve25519PublicKey ephemeralKeyPair.2
  ({ nonce := nonce, encryptedKey := encryptedKey,
     ephemeralPublicKey := ephemeralKeyPair.1 }, rng2)

/-- `decryptMessageKey(encryptedKey, recipientEd25519SecretKey)`. -/
def decryptMessageKey (encryptedKey : EncryptedKeyEnvelope)
    (recipientEd25519SecretKey : EdSecretKey) : Except CryptoError Nat :=
  let recipientCurve25519SecretKey :=
    ed25519SecretKeyToCurve25519 recipientEd25519SecretKey
  match naclBoxOpen encryptedKey.encryptedKey encryptedKey.nonce
      encryptedKey.ephemeralPublicKey recipientCurve25519SecretKey with
  | some messageKey => .ok messageKey
  | none => .error .authFailed

/-- The hybrid envelope `{ encryptedPayload, encryptedKeys }` returned by
`hybridEncrypt`; `encryptedKeys` is a JavaScript object keyed by the
recipient's base64 public key. -/
structure HybridEnvelope : Type where
  encryptedPayload : EncryptedPayloadEnvelope
  encryptedKeys : List (EdPublicKey × EncryptedKeyEnvelope)
  deriving DecidableEq, Repr

/-- The `for (const publicKey of recipientPublicKeys)` loop of
`hybridEncrypt`: wrap the message key for each recipient, storing the wrap
under the recipient's public key. -/
def wrapKeysLoop (messageKey : Nat) :
    List EdPublicKey → List (EdPublicKey × EncryptedKeyEnvelope) → Nat →
    List (EdPublicKey × EncryptedKeyEnvelope) × Nat
  | [], acc, rng => (acc, rng)
  | publicKey :: rest, acc, rng =>
    let (wrapped, rng1) := encryptMessageKey messageKey publicKey rng
    wrapKeysLoop messageKey rest (objInsert acc publicKey wrapped) rng1

/-- `hybridEncrypt(message, recipientPublicKeys)`: one fresh symmetric
message key, the payload secretboxed once under it, and the message key
wrapped once per recipient. -/
def hybridEncrypt (message : String) (recipientPublicKeys : List EdPublicKey)
    (rng : Nat) : HybridEnvelope × Nat :=
  let (messageKey, rng1) := generateMessageKey rng
  let (encryptedPayload, rng2) := encryptWithMessageKey message messageKey rng1
  let (encryptedKeys, rng3) := wrapKeysLoop messageKey recipientPublicKeys [] rng2
  ({ encryptedPayload := encryptedPayload, encryptedKeys := encryptedKeys }, rng3)

/-- `hybridDecrypt(hybridEncrypted, recipientPublicKey,
recipientPrivateKey)`: look up the caller's wrap by public key (throwing
`No encrypted key found for this recipient` when absent), unwrap the
message key, decrypt the payload. -/
def hybridDecrypt (hybridEncrypted : HybridEnvelope)
    (recipientPublicKey : EdPublicKey) (recipientPrivateKey : EdSecretKey) :
    Except CryptoError String :=
  match objGet hybridEncrypted.encryptedKeys recipientPublicKey with
  | none => .error .recipientNotFound
  | some encryptedKey =>
    match decryptMessageKey encryptedKey recipientPrivateKey with
    | .error e => .error e
    | .ok messageKey =>
      decryptWithMessageKey hybridEncrypted.encryptedPayload messageKey

/-! ## JavaScript truthiness helpers -/

/-- The JavaScript `a || b` fallback chain on possibly-absent values
(`null`/`undefined` modelled as `none`). -/
def jsOr {α : Type} (a b : Option α) : Option α :=
  match a with
  | some x => some x
  | none => b

/-- `Map.delete k` / removing the single binding of a key. -/
def objErase {κ ν : Type} [DecidableEq κ] (m : List (κ × ν)) (k : κ) :
    List (κ × ν) :=
  match m with
  | [] => []
  | kv :: rest => if kv.1 = k then objErase rest k else kv :: objErase rest k

/-! ## Pending requests in the WebSocket client

`#sendMessage` stores `{resolve, reject, timeout}` in the
`#messageCallbacks` `Map` under the key `Date.now().toString()`; `toString`
is injective on timestamps, so the key is modelled as the millisecond
timestamp itself.  `#handleMessage` settles `entries[0]` — the oldest
binding in `Map` insertion order — on every single-shot response
(`+PASS:` / `+REPLAY:` resolve it, `-FAIL:` rejects it) and deletes its
key. -/

/-- How a pending request promise was settled. -/
inductive SettleKind : Type
  | resolved
  | rejected
  deriving DecidableEq, Repr

/-- The pending-request bookkeeping of the WebSocket client: the
`#messageCallbacks` map (millisecond key ↦ request identity) plus a log of
promise settlements performed by response frames. -/
structure PendingState : Type where
  callbacks : List (Nat × Nat)
  settlements : List (Nat × SettleKind)
  deriving DecidableEq, Repr

/-- The empty `#messageCallbacks` map with no settlements. -/
def initialPendingState : PendingState :=
  { callbacks := [], settlements := [] }

/-- `#sendMessage` with the socket open: register the callback under
`messageId = Date.now().toString()` (a `Map.set`, which overwrites any
binding already present for that millisecond) and write the command. -/
def sendMessage (s : PendingState) (now requestId : Nat) : PendingState :=
  { s with callbacks := objInsert s.callbacks now requestId }

/-- The classification of a single-shot response frame. -/
inductive ResponseKind : Type
  | pass
  | replay
  | fail
  deriving DecidableEq, Repr

/-- The response branch of `#handleMessage`: take `entries[0]` of the
callbacks map (if any), clear its timeout, delete its key, and resolve
(`+PASS:`/`+REPLAY:`) or reject (`-FAIL:`) its promise. -/
def handleResponseFrame (s : PendingState) (r : ResponseKind) : PendingState :=
  match s.callbacks with
  | [] => s
  | (_, requestId) :: rest =>
    { callbacks := rest
      settlements := s.settlements ++
        [(requestId, match r with | .fail => .rejected | _ => .resolved)] }

/-! ## Record dispatch

Handler delivery in the two clients.  A handler either returns a promise
that later fulfills (`asyncResolve`), returns a promise that later
rejects (`asyncReject`), or throws synchronously (`syncThrow`).  The
dispatchers are embedded as the ordered list of observable actions they
perform; for the WebSocket client the unawaited `async` IIFEs of the
`+RECORD` loop are split into the synchronous phase each IIFE runs before
its first `await` and the continuation that runs once the awaited promise
settles (continuations are resumed in registration order, one possible
schedule). -/

/-- The behaviour of one registered handler. -/
inductive HandlerOutcome : Type
  | asyncResolve
  | asyncReject
  | syncThrow
  deriving DecidableEq, Repr

/-- A wrapped handler of the WebSocket client: `{ handler, appSecretKey,
autoAck }` (the per-handler decryption key only determines whether the
per-delivery processing succeeds, which is folded into
`EventInfo.payloadOk`). -/
structure WrappedHandler : Type where
  id : Nat
  autoAck : Bool
  outcome : HandlerOutcome
  deriving DecidableEq, Repr

/-- A bare handler of the gRPC client (auto-ack is per subscription
there). -/
structure HandlerSpec : Type where
  id : Nat
  outcome : HandlerOutcome
  deriving DecidableEq, Repr

/-- Per-delivery facts about the inbound frame: whether parsing and
decryption produced a payload, and whether `idem` and `block` are truthy. -/
structure EventInfo : Type where
  payloadOk : Bool
  hasIdem : Bool
  hasBlock : Bool
  deriving DecidableEq, Repr

/-- Observable actions of a dispatcher. -/
inductive DispatchAction : Type
  | processFailedLogged (id : Nat)
  | handlerInvoked (id : Nat)
  | handlerSettled (id : Nat)
  | handlerErrorLogged (id : Nat)
  | asyncRejectionLogged (id : Nat)
  | ackSent (id : Nat)
  | emitMessageEvent
  deriving DecidableEq, Repr

/-- The auto-ack tail of the WebSocket IIFE: `if (autoAck &&
processedEvent.idem && processedEvent.block) await this.#ack(...)`. -/
def wsAckActions (ev : EventInfo) (autoAck : Bool) (id : Nat) :
    List DispatchAction :=
  if autoAck && ev.hasIdem && ev.hasBlock then [.ackSent id] else []

/-- The part of one `+RECORD` IIFE that runs synchronously, before the
IIFE first suspends: parse/decrypt, skip on failure, invoke the handler
(a synchronous throw is caught and logged by the IIFE's own `catch`). -/
def wsHandlerSyncPhase (ev : EventInfo) (h : WrappedHandler) :
    List DispatchAction :=
  if ev.payloadOk = false then [.processFailedLogged h.id]
  else
    match h.outcome with
    | .syncThrow => [.handlerInvoked h.id, .handlerErrorLogged h.id]
    | _ => [.handlerInvoked h.id]

/-- The continuation of one `+RECORD` IIFE after `await
result.catch(log)` settles: a rejection is logged by the attached
`.catch` and the IIFE continues, then the completion is logged and the
auto-ack tail runs. -/
def wsHandlerResumePhase (ev : EventInfo) (h : WrappedHandler) :
    List DispatchAction :=
  if ev.payloadOk = false then []
  else
    match h.outcome with
    | .syncThrow => []
    | .asyncResolve => .handlerSettled h.id :: wsAckActions ev h.autoAck h.id
    | .asyncReject =>
        .asyncRejectionLogged h.id :: .handlerSettled h.id ::
          wsAckActions ev h.autoAck h.id

/-- The `+RECORD` dispatch loop of the WebSocket `#handleMessage`: the
`for` loop fires one `async` IIFE per wrapped handler without awaiting
it, so every IIFE's synchronous phase runs before any continuation. -/
def wsDispatchRecord (ev : EventInfo) (handlers : List WrappedHandler) :
    List DispatchAction :=
  (handlers.map (wsHandlerSyncPhase ev)).flatten ++
    (handlers.map (wsHandlerResumePhase ev)).flatten

/-- One iteration of the gRPC stream `data` callback's handler loop: the
handler is invoked and awaited; an error (synchronous throw or promise
rejection) jumps to the `catch`, skipping the auto-ack; on success the
auto-ack runs before the next handler. -/
def grpcHandlerRun (autoAck hasIdem hasBlock : Bool) (h : HandlerSpec) :
    List DispatchAction :=
  match h.outcome with
  | .asyncResolve =>
      .handlerInvoked h.id :: .handlerSettled h.id ::
        (if autoAck && hasIdem && hasBlock then [.ackSent h.id] else [])
  | .asyncReject => [.handlerInvoked h.id, .handlerErrorLogged h.id]
  | .syncThrow => [.handlerInvoked h.id, .handlerErrorLogged h.id]

/-- The gRPC stream `data` callback's handler loop: handlers run strictly
in sequence because the callback awaits each one. -/
def grpcDispatchMessage (autoAck hasIdem hasBlock : Bool)
    (handlers : List HandlerSpec) : List DispatchAction :=
  (handlers.map (grpcHandlerRun autoAck hasIdem hasBlock)).flatten

/-! ## Connection lifecycle of the WebSocket client

`#handleClose` marks the connection down, clears timers, rejects every
pending callback, notifies the registered `close` handlers, and — while
`shouldReconnect` holds and fewer than `maxReconnectAttempts` attempts
have been made — increments the attempt counter and schedules a
reconnect after `reconnectInterval * 1.5^(attempts - 1)` ms; once the
counter has reached the maximum it only logs that it is giving up.
`#handleError` is the only place the registered `error` handlers are
notified.  The `open` handler of `connect()` resets the attempt
counter. -/

/-- Reconnection-relevant configuration of the WebSocket client. -/
structure WsConnConfig : Type where
  reconnectInterval : ℚ
  maxReconnectAttempts : Nat
  deriving DecidableEq, Repr

/-- Reconnection-relevant state of the WebSocket client. -/
structure WsConnState : Type where
  isConnected : Bool
  isAuthenticated : Bool
  reconnectAttempts : Nat
  shouldReconnect : Bool
  pendingRequests : List Nat
  deriving DecidableEq, Repr

/-- Observable actions of the connection lifecycle. -/
inductive ConnAction : Type
  | pendingRejected (requestId : Nat)
  | closeHandlersNotified
  | reconnectScheduled (attempt : Nat) (delay : ℚ)
  | giveUpLogged
  | errorHandlersNotified
  deriving DecidableEq, Repr

/-- `#handleClose(code, reason)`. -/
def handleClose (cfg : WsConnConfig) (s : WsConnState) :
    WsConnState × List ConnAction :=
  let cleared : WsConnState :=
    { s with isConnected := false, isAuthenticated := false,
             pendingRequests := [] }
  let base :=
    s.pendingRequests.map ConnAction.pendingRejected ++
      [ConnAction.closeHandlersNotified]
  if s.shouldReconnect ∧ s.reconnectAttempts < cfg.maxReconnectAttempts then
    let attempt := s.reconnectAttempts + 1
    let delay := cfg.reconnectInterval * (3 / 2 : ℚ) ^ (attempt - 1)
    ({ cleared with reconnectAttempts := attempt },
      base ++ [.reconnectScheduled attempt delay])
  else if s.reconnectAttempts ≥ cfg.maxReconnectAttempts then
    (cleared, base ++ [.giveUpLogged])
  else
    (cleared, base)

/-- `#handleError(error)`: notify the registered `error` handlers. -/
def handleWsError (actionsSoFar : List ConnAction) : List ConnAction :=
  actionsSoFar ++ [.errorHandlersNotified]

/-- The `open` handler installed by `connect()`: mark connected and reset
the reconnect attempt counter to zero. -/
def handleOpen (s : WsConnState) : WsConnState :=
  { s with isConnected := true, reconnectAttempts := 0 }

/-- Iterate `#handleClose` over `n` consecutive transport closes (each
scheduled reconnect attempt failing to open and closing again),
concatenating the emitted actions. -/
def runCloses (cfg : WsConnConfig) : Nat → WsConnState → WsConnState × List ConnAction
  | 0, s => (s, [])
  | n + 1, s =>
    let step := handleClose cfg s
    let rest := runCloses cfg n step.1
    (rest.1, step.2 ++ rest.2)

/-- Spec-side description of the close/backoff log, following the amended
claim's words: starting from attempt counter `a`, each close either
schedules attempt `a + 1` after exactly `interval * (3/2)^a` (no cap) when
`a < maxAttempts`, or only logs the give-up; no close ever notifies the
`error` handlers. -/
def expectedBackoffLog (interval : ℚ) (maxAttempts : Nat) :
    Nat → Nat → List ConnAction
  | _, 0 => []
  | a, n + 1 =>
    if a < maxAttempts then
      .closeHandlersNotified ::
        .reconnectScheduled (a + 1) (interval * (3 / 2 : ℚ) ^ a) ::
          expectedBackoffLog interval maxAttempts (a + 1) n
    else
      .closeHandlersNotified :: .giveUpLogged ::
        expectedBackoffLog interval maxAttempts a n

/-! ## Defer -/

/-- Commands written to the WebSocket transport (only the verbs the
claims need). -/
inductive WireCommand : Type
  | conn
  | deferCmd (delayMs : Int)
  | sub (eventName : String)
  | unsub (eventName : String)
  | ackCmd (eventName : String)
  deriving DecidableEq, Repr

/-- The engine's reply to a round-trip command. -/
inductive EngineReply : Type
  | pass
  | fail
  deriving DecidableEq, Repr

/-- Outcome of the WebSocket `#deferEvent`. -/
inductive WsDeferOutcome : Type
  | authError
  | validationError
  | eventError
  | success
  deriving DecidableEq, Repr

/-- `#deferEvent(eventId, delayMs, reason)` of the WebSocket client: auth
check, then the delay-range validation `delayMs !== 0 && (delayMs < 1000
|| delayMs > 24*60*60*1000)` throwing `EnSyncValidationError` before any
send, then the `DEFER` round trip (second component: commands written to
the transport). -/
def wsDeferEvent (isAuthenticated : Bool) (delayMs : Int) (reply : EngineReply) :
    WsDeferOutcome × List WireCommand :=
  if isAuthenticated = false then (.authError, [])
  else if delayMs ≠ 0 ∧ (delayMs < 1000 ∨ delayMs > 24 * 60 * 60 * 1000) then
    (.validationError, [])
  else
    match reply with
    | .fail => (.eventError, [.deferCmd delayMs])
    | .pass => (.success, [.deferCmd delayMs])

/-- Unary RPCs issued by the gRPC client (only the ones the claims
need). -/
inductive GrpcCall : Type
  | deferMessage (delayMs : Int)
  | unsubscribe (messageName : String)
  deriving DecidableEq, Repr

/-- Outcome of the gRPC `#deferMessage`. -/
inductive GrpcDeferOutcome : Type
  | success
  | deferError
  deriving DecidableEq, Repr

/-- `#deferMessage(messageIdem, messageName, delayMs, reason)` of the
gRPC client: it performs no local validation — it always issues the
`DeferMessage` RPC and settles from the reply. -/
def grpcDeferMessage (delayMs : Int) (reply : EngineReply) :
    GrpcDeferOutcome × List GrpcCall :=
  match reply with
  | .pass => (.success, [.deferMessage delayMs])
  | .fail => (.deferError, [.deferMessage delayMs])

/-! ## Subscription registries

The WebSocket client keeps `#subscriptions : Map<eventName,
Set<wrappedHandler>>`.  `subscribe` sends `SUB` and, on `+PASS:`, ensures
an (initially empty) handler set exists; `#on` adds a wrapped handler and
returns a removal closure that deletes that handler and, when the set
becomes empty, deletes the local map entry — it writes nothing to the
transport; `#unsubscribe` sends `UNSUB` and deletes the entry on
`+PASS:`.  The remote engine is the external collaborator: its contract
is that a successful `SUB` registers the topic for this client and a
successful `UNSUB` deregisters it; `engineTopics` tracks that
registration. -/

/-- Subscription-registry state of the WebSocket client, together with
the engine-side registration set and the commands written. -/
structure WsSubscriptionsState : Type where
  subscriptions : List (String × List Nat)
  engineTopics : List String
  sent : List WireCommand
  deriving DecidableEq, Repr

/-- The empty registry. -/
def initialSubscriptionsState : WsSubscriptionsState :=
  { subscriptions := [], engineTopics := [], sent := [] }

/-- `subscribe(eventName, options)` with a `+PASS:` reply: send `SUB`,
engine registers the topic, and a fresh empty handler set is created if
none exists. -/
def wsSubscribe (s : WsSubscriptionsState) (eventName : String) :
    WsSubscriptionsState :=
  { subscriptions :=
      match objGet s.subscriptions eventName with
      | some _ => s.subscriptions
      | none => s.subscriptions ++ [(eventName, [])]
    engineTopics :=
      if eventName ∈ s.engineTopics then s.engineTopics
      else s.engineTopics ++ [eventName]
    sent := s.sent ++ [.sub eventName] }

/-- `#on(eventName, handler, ...)`: ensure the handler set exists and add
the wrapped handler (no command is sent). -/
def wsOn (s : WsSubscriptionsState) (eventName : String) (handlerId : Nat) :
    WsSubscriptionsState :=
  { s with subscriptions :=
      match objGet s.subscriptions eventName with
      | some hs => objInsert s.subscriptions eventName (hs ++ [handlerId])
      | none => s.subscriptions ++ [(eventName, [handlerId])] }

/-- The removal closure returned by the WebSocket `#on`: delete the first
wrapped handler whose function matches, and delete the local map entry
when the set becomes empty.  Nothing is written to the transport and the
engine-side registration is untouched. -/
def wsRemoveHandler (s : WsSubscriptionsState) (eventName : String)
    (handlerId : Nat) : WsSubscriptionsState :=
  match objGet s.subscriptions eventName with
  | none => s
  | some hs =>
    let hs' := hs.erase handlerId
    if hs'.length = 0 then
      { s with subscriptions := objErase s.subscriptions eventName }
    else
      { s with subscriptions := objInsert s.subscriptions eventName hs' }

/-- `#unsubscribe(eventName)`: send `UNSUB`; on `+PASS:` the engine
deregisters the topic and the local entry is deleted, on `-FAIL:` an
`EnSyncSubscriptionError` is thrown and nothing is removed. -/
def wsUnsubscribe (s : WsSubscriptionsState) (eventName : String)
    (reply : EngineReply) : WsSubscriptionsState :=
  let sent' := s.sent ++ [WireCommand.unsub eventName]
  match reply with
  | .pass =>
    { subscriptions := objErase s.subscriptions eventName
      engineTopics := s.engineTopics.filter (fun t => t ≠ eventName)
      sent := sent' }
  | .fail => { s with sent := sent' }

/-- A `#subscriptions` entry of the gRPC client: `{ handlers, autoAck,
appSecretKey }` (the key is irrelevant to the registry claims). -/
structure GrpcSubscriptionEntry : Type where
  handlers : List Nat
  autoAck : Bool
  deriving DecidableEq, Repr

/-- The gRPC `#on(eventName, handler, ...)`: add the handler to the
subscription's handler set if the subscription exists. -/
def grpcOnAdd (subs : List (String × GrpcSubscriptionEntry))
    (eventName : String) (handlerId : Nat) :
    List (String × GrpcSubscriptionEntry) :=
  match objGet subs eventName with
  | some e => objInsert subs eventName { e with handlers := e.handlers ++ [handlerId] }
  | none => subs

/-- The removal closure returned by the gRPC `#on`: delete the handler
from the set; the subscription entry itself is never removed and no RPC
is issued, even when the set becomes empty. -/
def grpcRemoveHandler (subs : List (String × GrpcSubscriptionEntry))
    (eventName : String) (handlerId : Nat) :
    List (String × GrpcSubscriptionEntry) :=
  match objGet subs eventName with
  | some e => objInsert subs eventName { e with handlers := e.handlers.erase handlerId }
  | none => subs

/-! ## Inbound message processing (gRPC `#processMessage`,
WebSocket `#decryptPayload`) -/

/-- The decrypted-but-encoded payload carried by an inbound frame: either
the `{ type: "hybrid", payload, keys }` wrapper produced by hybrid
publishing, or a direct single-recipient envelope. -/
inductive InboundCipher : Type
  | hybridCipher (payload : EncryptedPayloadEnvelope)
      (keys : List (EdPublicKey × EncryptedKeyEnvelope))
  | directCipher (env : DirectEnvelope)
  deriving DecidableEq, Repr

/-- The fields of an inbound stream message the dispatcher consumes. -/
structure InboundMessageData : Type where
  messageName : String
  messageIdem : String
  partitionBlock : String
  cipher : InboundCipher
  deriving DecidableEq, Repr

/-- The processed message handed to handlers. -/
structure ProcessedMessage : Type where
  messageName : String
  idem : String
  block : String
  payload : String
  deriving DecidableEq, Repr

/-- The `for (const recipientId of recipientIds)` loop of
`#processMessage`: try to unwrap the message key from each entry with the
single selected decryption key and decrypt the payload with it; the first
full success wins, every failure moves on to the next entry. -/
def tryHybridKeys (keys : List (EdPublicKey × EncryptedKeyEnvelope))
    (encPayload : EncryptedPayloadEnvelope) (dk : EdSecretKey) :
    Option String :=
  match keys with
  | [] => none
  | (_, encryptedKey) :: rest =>
    match decryptMessageKey encryptedKey dk with
    | .ok messageKey =>
      match decryptWithMessageKey encPayload messageKey with
      | .ok p => some p
      | .error _ => tryHybridKeys rest encPayload dk
    | .error _ => tryHybridKeys rest encPayload dk

/-- The body of the gRPC `#processMessage` after the decryption key has
been selected: hybrid messages try the key against each wrapped entry,
direct messages decrypt with `decryptEd25519`; any failure is logged and
yields `null`. -/
def processMessageWithKey (m : InboundMessageData) (dk : EdSecretKey) :
    Option ProcessedMessage :=
  match m.cipher with
  | .hybridCipher encPayload keys =>
    match tryHybridKeys keys encPayload dk with
    | some p =>
        some { messageName := m.messageName, idem := m.messageIdem,
               block := m.partitionBlock, payload := p }
    | none => none
  | .directCipher env =>
    match decryptEd25519 env dk with
    | .ok p =>
        some { messageName := m.messageName, idem := m.messageIdem,
               block := m.partitionBlock, payload := p }
    | .error _ => none

/-- The gRPC `#processMessage(messageData, appSecretKey)`: `const
decryptionKey = appSecretKey || this.#config.appSecretKey ||
this.#config.clientHash`; with no key available it logs and returns
`null`, otherwise it decrypts with that single key. -/
def processMessage (m : InboundMessageData)
    (appSecretKey clientAppSecretKey clientHash : Option EdSecretKey) :
    Option ProcessedMessage :=
  match jsOr (jsOr appSecretKey clientAppSecretKey) clientHash with
  | none => none
  | some decryptionKey => processMessageWithKey m decryptionKey

/-- The gRPC subscription-stream `data` callback for a frame whose topic
has a registered subscription: process the message; a `null` result is
dropped (no emit, no handler, no thrown error), otherwise the message is
emitted and dispatched to every handler in sequence. -/
def grpcStreamOnData (m : InboundMessageData)
    (appSecretKey clientAppSecretKey clientHash : Option EdSecretKey)
    (autoAck : Bool) (handlers : List HandlerSpec) : List DispatchAction :=
  match processMessage m appSecretKey clientAppSecretKey clientHash with
  | none => []
  | some pm =>
    .emitMessageEvent ::
      grpcDispatchMessage autoAck (pm.idem ≠ "") (pm.block ≠ "") handlers

/-- The WebSocket `#decryptPayload(eventData, appSecretKey)`: the same
`appSecretKey || this.#config.appSecretKey || this.#config.clientHash`
selection; with no key it logs `No decryption key available` and reports
failure, and a decryption error likewise reports failure instead of
throwing. -/
def wsDecryptPayload (encryptedPayload : DirectEnvelope)
    (appSecretKey clientAppSecretKey clientHash : Option EdSecretKey) :
    Option String :=
  match jsOr (jsOr appSecretKey clientAppSecretKey) clientHash with
  | none => none
  | some decryptionKey =>
    match decryptEd25519 encryptedPayload decryptionKey with
    | .ok p => some p
    | .error _ => none

/-! ## Publish-time encryption selection (gRPC `_publishInternal`) -/

/-- What `_publishInternal` attaches to each recipient's `PublishMessage`
request: one shared hybrid envelope, or a per-recipient direct
envelope. -/
inductive EncryptedPayloadKind : Type
  | hybridEnc (env : HybridEnvelope)
  | directEnc (env : DirectEnvelope)
  deriving DecidableEq, Repr

/-- Whether the attached payload is the hybrid form. -/
def EncryptedPayloadKind.isHybrid : EncryptedPayloadKind → Bool
  | .hybridEnc _ => true
  | .directEnc _ => false

/-- The `recipients.map(...)` of the traditional branch: a separate
`encryptEd25519` per recipient (fresh entropy each call). -/
def encryptPerRecipientLoop (payload : String) :
    List EdPublicKey → Nat → List (EdPublicKey × EncryptedPayloadKind) × Nat
  | [], rng => ([], rng)
  | r :: rs, rng =>
    let (env, rng1) := encryptEd25519 payload r rng
    let (rest, rng2) := encryptPerRecipientLoop payload rs rng1
    ((r, .directEnc env) :: rest, rng2)

/-- The encryption-selection fragment of `_publishInternal` (the guards
before it having passed): `useHybridEncryption =
options.useHybridEncryption !== false`, and hybrid encryption is used
only when additionally `recipients.length > 1`; otherwise each recipient
gets a direct envelope. -/
def publishInternalEncrypt (recipients : List EdPublicKey)
    (useHybridEncryption : Option Bool) (payload : String) (rng : Nat) :
    List (EdPublicKey × EncryptedPayloadKind) :=
  if useHybridEncryption ≠ some false ∧ recipients.length > 1 then
    let (env, _) := hybridEncrypt payload recipients rng
    recipients.map (fun r => (r, .hybridEnc env))
  else
    (encryptPerRecipientLoop payload recipients rng).1

/-! # Theorems -/

/-! ## Object-map lemmas -/

theorem objGet_append {κ ν : Type} [DecidableEq κ]
    (m l : List (κ × ν)) (k : κ) :
    objGet (m ++ l) k =
      (match objGet m k with | some v => some v | none => objGet l k) := by
  induction m with
  | nil => simp [objGet]
  | cons kv rest ih =>
    by_cases hk : kv.1 = k
    · simp [objGet, hk]
    · simp [objGet, hk, ih]

theorem objGet_eq_none_of_not_any {κ ν : Type} [DecidableEq κ]
    (m : List (κ × ν)) (k : κ) (h : ¬ m.any (fun kv => kv.1 = k)) :
    objGet m k = none := by
  induction m with
  | nil => rfl
  | cons kv rest ih =>
    simp only [List.any_cons, Bool.or_eq_true, not_or] at h
    have hk : ¬ kv.1 = k := by simpa using h.1
    simp [objGet, hk, ih (by simpa using h.2)]

theorem objGet_map_replace_self {κ ν : Type} [DecidableEq κ]
    (m : List (κ × ν)) (k : κ) (v : ν) (h : m.any (fun kv => kv.1 = k)) :
    objGet (m.map (fun kv => if kv.1 = k then (k, v) else kv)) k = some v := by
  induction m with
  | nil => simp at h
  | cons kv rest ih =>
    by_cases hk : kv.1 = k
    · simp [objGet, hk]
    · simp only [List.any_cons, Bool.or_eq_true] at h
      have hrest : rest.any (fun kv => kv.1 = k) := by
        rcases h with h | h
        · exact absurd (by simpa using h) hk
        · exact h
      simp [objGet, hk, ih hrest]

theorem objGet_map_replace_ne {κ ν : Type} [DecidableEq κ]
    (m : List (κ × ν)) (k : κ) (v : ν) (k' : κ) (h : k ≠ k') :
    objGet (m.map (fun kv => if kv.1 = k then (k, v) else kv)) k' = objGet m k' := by
  induction m with
  | nil => rfl
  | cons kv rest ih =>
    by_cases hk : kv.1 = k
    · have hne : ¬ kv.1 = k' := fun hh => h (hk ▸ hh)
      simp [objGet, hk, hne, h, ih]
    · by_cases hk' : kv.1 = k'
      · simp [objGet, hk, hk', Ne.symm h]
      · simp [objGet, hk, hk', ih]

theorem objGet_objInsert_self {κ ν : Type} [DecidableEq κ]
    (m : List (κ × ν)) (k : κ) (v : ν) :
    objGet (objInsert m k v) k = some v := by
  unfold objInsert
  by_cases ha : m.any (fun kv => kv.1 = k)
  · simp [ha, objGet_map_replace_self m k v ha]
  · simp [ha, objGet_append, objGet_eq_none_of_not_any m k ha, objGet]

theorem objGet_objInsert_ne {κ ν : Type} [DecidableEq κ]
    (m : List (κ × ν)) (k : κ) (v : ν) (k' : κ) (h : k ≠ k') :
    objGet (objInsert m k v) k' = objGet m k' := by
  unfold objInsert
  by_cases ha : m.any (fun kv => kv.1 = k)
  · simp [ha, objGet_map_replace_ne m k v k' h]
  · simp only [ha, if_neg, Bool.false_eq_true, not_false_iff, if_false]
    rw [objGet_append]
    have : objGet [(k, v)] k' = none := by simp [objGet, h]
    cases hm : objGet m k' <;> simp [this]

/-! ## Crypto lemmas -/

theorem decryptMessageKey_encryptMessageKey (messageKey s rng : Nat) :
    decryptMessageKey (encryptMessageKey messageKey (.mk s) rng).1 (.mk s) =
      .ok messageKey := by
  simp [encryptMessageKey, decryptMessageKey, naclBoxKeyPair, naclRandomNonce,
    naclBox, naclBoxOpen, ed25519PublicKeyToCurve25519,
    ed25519SecretKeyToCurve25519, dhShared, Nat.min_comm, Nat.max_comm]

theorem decryptWithMessageKey_encryptWithMessageKey (P : String) (mkey rng : Nat) :
    decryptWithMessageKey (encryptWithMessageKey P mkey rng).1 mkey = .ok P := by
  simp [encryptWithMessageKey, decryptWithMessageKey, naclRandomNonce,
    naclSecretbox, naclSecretboxOpen]

theorem wrapKeysLoop_objGet_ok (messageKey : Nat) (pks : List EdPublicKey) :
    ∀ (acc : List (EdPublicKey × EncryptedKeyEnvelope)) (rng s : Nat),
      (EdPublicKey.mk s ∈ pks ∨
        ∃ w, objGet acc (.mk s) = some w ∧
          decryptMessageKey w (.mk s) = .ok messageKey) →
      ∃ w, objGet (wrapKeysLoop messageKey pks acc rng).1 (.mk s) = some w ∧
        decryptMessageKey w (.mk s) = .ok messageKey := by
  induction pks with
  | nil =>
    intro acc rng s h
    rcases h with h | h
    · simp at h
    · simpa [wrapKeysLoop] using h
  | cons p ps ih =>
    intro acc rng s h
    by_cases hins : EdPublicKey.mk s ∈ ps
    · exact ih _ _ s (Or.inl hins)
    · by_cases hp : p = EdPublicKey.mk s
      · refine ih _ _ s (Or.inr ?_)
        refine ⟨(encryptMessageKey messageKey p rng).1, ?_, ?_⟩
        · simpa [hp] using
            objGet_objInsert_self acc p (encryptMessageKey messageKey p rng).1
        · subst hp; exact decryptMessageKey_encryptMessageKey messageKey s rng
      · rcases h with h | h
        · rcases List.mem_cons.mp h with h | h
          · exact absurd h.symm hp
          · exact absurd h hins
        · rcases h with ⟨w, hw, hdk⟩
          refine ih _ _ s (Or.inr ⟨w, ?_, hdk⟩)
          rw [objGet_objInsert_ne acc p _ _ hp]
          exact hw

theorem wrapKeysLoop_objGet_none (messageKey : Nat) (pks : List EdPublicKey) :
    ∀ (acc : List (EdPublicKey × EncryptedKeyEnvelope)) (rng : Nat)
      (k : EdPublicKey), k ∉ pks → objGet acc k = none →
      objGet (wrapKeysLoop messageKey pks acc rng).1 k = none := by
  induction pks with
  | nil => intro acc rng k _ hacc; simpa [wrapKeysLoop] using hacc
  | cons p ps ih =>
    intro acc rng k hk hacc
    have hp : p ≠ k := fun hh => hk (hh ▸ List.mem_cons_self p ps)
    have hks : k ∉ ps := fun hh => hk (List.mem_cons_of_mem p hh)
    exact ih _ _ k hks (by rw [objGet_objInsert_ne acc p _ _ hp]; exact hacc)

/-! ## C1 — hybrid round trip -/

/-- C1: for every plaintext `P`, every non-empty list `R` of valid
Ed25519 key pairs (a pair being its seed, with public and secret halves
derived from it) and every pair `k ∈ R`,
`hybridDecrypt (hybridEncrypt P R.publicKeys) k.public k.secret`
returns `P` — the payload is secretboxed once under one fresh message
key, which is wrapped once per recipient, keyed by the recipient's
public key. -/
theorem c1_hybrid_roundtrip (P : String) (R : List Nat) (s : Nat)
    (hs : s ∈ R) (rng : Nat) :
    hybridDecrypt (hybridEncrypt P (R.map EdPublicKey.mk) rng).1
      (EdPublicKey.mk s) (EdSecretKey.mk s) = .ok P := by
  obtain ⟨w, hw, hdk⟩ := wrapKeysLoop_objGet_ok rng (R.map .mk) [] (rng + 2) s
    (Or.inl (List.mem_map_of_mem _ hs))
  simp only [hybridEncrypt, generateMessageKey, encryptWithMessageKey,
    naclRandomNonce, hybridDecrypt]
  simp [hw, hdk, decryptWithMessageKey, naclSecretbox, naclSecretboxOpen]

/-- Witness for C1 at `P = "hi"`, `R = [0, 1]`, `k` the pair with seed
`1`, entropy counter `5`. -/
theorem c1_hybrid_roundtrip_witness :
    (1 : Nat) ∈ [0, 1] ∧
      hybridDecrypt (hybridEncrypt "hi" ([0, 1].map EdPublicKey.mk) 5).1
        (EdPublicKey.mk 1) (EdSecretKey.mk 1) = .ok "hi" :=
  ⟨by decide, c1_hybrid_roundtrip "hi" [0, 1] 1 (by decide) 5⟩

/-! ## C7 — non-recipient exclusion -/

/-- C7: for every hybrid envelope produced by `hybridEncrypt` for a
recipient set `R` and every key pair `k` whose public key is not in `R`,
`hybridDecrypt` fails with the recipient-not-found error (`No encrypted
key found for this recipient`) and never returns a plaintext. -/
theorem c7_non_recipient_excluded (P : String) (R : List Nat) (s : Nat)
    (hs : s ∉ R) (rng : Nat) :
    hybridDecrypt (hybridEncrypt P (R.map EdPublicKey.mk) rng).1
      (EdPublicKey.mk s) (EdSecretKey.mk s) = .error .recipientNotFound := by
  have hmem : EdPublicKey.mk s ∉ R.map EdPublicKey.mk := by
    simp only [List.mem_map, not_exists, not_and]
    intro a ha hEq
    exact hs ((EdPublicKey.mk.injEq a s ▸ hEq : a = s) ▸ ha)
  have hnone := wrapKeysLoop_objGet_none rng (R.map .mk) [] (rng + 2)
    (.mk s) hmem rfl
  simp only [hybridEncrypt, generateMessageKey, encryptWithMessageKey,
    naclRandomNonce, hybridDecrypt]
  simp [hnone]

/-- Witness for C7 at `P = "hi"`, `R = [0, 1]`, `k` the pair with seed
`2`, entropy counter `5`. -/
theorem c7_non_recipient_excluded_witness :
    (2 : Nat) ∉ [0, 1] ∧
      hybridDecrypt (hybridEncrypt "hi" ([0, 1].map EdPublicKey.mk) 5).1
        (EdPublicKey.mk 2) (EdSecretKey.mk 2) = .error .recipientNotFound :=
  ⟨by decide, c7_non_recipient_excluded "hi" [0, 1] 2 (by decide) 5⟩

/-! ## C2 — auto-ack ordering -/

theorem grpc_ack_mem_iff (autoAck hasIdem hasBlock : Bool) (h : HandlerSpec) :
    DispatchAction.ackSent h.id ∈ grpcHandlerRun autoAck hasIdem hasBlock h ↔
      h.outcome = .asyncResolve ∧ autoAck = true ∧ hasIdem = true ∧
        hasBlock = true := by
  obtain ⟨hid, houtcome⟩ := h
  cases houtcome <;> cases autoAck <;> cases hasIdem <;> cases hasBlock <;>
    simp [grpcHandlerRun]

theorem grpc_ack_not_early (autoAck hasIdem hasBlock : Bool) (h : HandlerSpec) :
    DispatchAction.ackSent h.id ∉
      (grpcHandlerRun autoAck hasIdem hasBlock h).take 2 := by
  obtain ⟨hid, houtcome⟩ := h
  cases houtcome <;> cases autoAck <;> cases hasIdem <;> cases hasBlock <;>
    simp [grpcHandlerRun]

theorem ws_ack_not_sync_phase (ev : EventInfo) (w : WrappedHandler) :
    DispatchAction.ackSent w.id ∉ wsHandlerSyncPhase ev w := by
  obtain ⟨wid, wack, wout⟩ := w
  obtain ⟨pOk, hI, hB⟩ := ev
  cases wout <;> cases pOk <;> simp [wsHandlerSyncPhase]

theorem ws_ack_resume_iff (ev : EventInfo) (w : WrappedHandler) :
    DispatchAction.ackSent w.id ∈ wsHandlerResumePhase ev w ↔
      w.outcome ≠ .syncThrow ∧ w.autoAck = true ∧ ev.payloadOk = true ∧
        ev.hasIdem = true ∧ ev.hasBlock = true := by
  obtain ⟨wid, wack, wout⟩ := w
  obtain ⟨pOk, hI, hB⟩ := ev
  cases wout <;> cases wack <;> cases pOk <;> cases hI <;> cases hB <;>
    simp [wsHandlerResumePhase, wsAckActions]

/-- C2, counterexample to the claim as stated: in the WebSocket client,
for a subscription handler with `autoAck` enabled whose returned promise
rejects, the dispatch still sends the ACK — the attached
`result.catch(log)` swallows the rejection and the IIFE proceeds to the
auto-ack, so "if its returned promise rejects, no auto-ack is sent" is
false on this input. -/
theorem c2_ws_autoack_despite_rejection :
    DispatchAction.ackSent 0 ∈
      wsDispatchRecord ⟨true, true, true⟩ [⟨0, true, .asyncReject⟩] ∧
    wsDispatchRecord ⟨true, true, true⟩ [⟨0, true, .asyncReject⟩] =
      [.handlerInvoked 0, .asyncRejectionLogged 0, .handlerSettled 0,
       .ackSent 0] :=
  ⟨by decide, rfl⟩

/-- C2 as amended: in the gRPC client the ACK for a delivery is sent iff
the handler's work completed successfully (with auto-ack on and truthy
idem/block), and never before the handler has been invoked and its
promise settled; in the WebSocket client no ACK is ever sent before the
handler's awaited work finishes and a synchronous throw suppresses it,
but the ACK is sent whenever the handler did not throw synchronously —
including when its returned promise rejects, since the rejection is
logged and swallowed. -/
theorem c2_autoack_ordering_amended (autoAck hasIdem hasBlock : Bool)
    (h : HandlerSpec) (ev : EventInfo) (w : WrappedHandler) :
    (DispatchAction.ackSent h.id ∈ grpcHandlerRun autoAck hasIdem hasBlock h ↔
      h.outcome = .asyncResolve ∧ autoAck = true ∧ hasIdem = true ∧
        hasBlock = true) ∧
    DispatchAction.ackSent h.id ∉
      (grpcHandlerRun autoAck hasIdem hasBlock h).take 2 ∧
    DispatchAction.ackSent w.id ∉ wsHandlerSyncPhase ev w ∧
    (DispatchAction.ackSent w.id ∈ wsHandlerResumePhase ev w ↔
      w.outcome ≠ .syncThrow ∧ w.autoAck = true ∧ ev.payloadOk = true ∧
        ev.hasIdem = true ∧ ev.hasBlock = true) :=
  ⟨grpc_ack_mem_iff autoAck hasIdem hasBlock h,
   grpc_ack_not_early autoAck hasIdem hasBlock h,
   ws_ack_not_sync_phase ev w,
   ws_ack_resume_iff ev w⟩

/-! ## C3 — FIFO request matching -/

/-- C3, the code evaluated at the failing input: two requests (`0` then
`1`) sent in the same millisecond (`Date.now() = 1000` for both) followed
by one `+PASS:` response.  The second `Map.set` overwrites the first
pending entry, so the first response settles request `1` — not the oldest
request `0`, which is left with no pending entry and is never settled by
any response.  With distinct timestamps (third conjunct) the oldest
request is settled first, as the claim expects. -/
theorem c3_same_millisecond_requests_collide :
    (handleResponseFrame
        (sendMessage (sendMessage initialPendingState 1000 0) 1000 1)
        .pass).settlements = [(1, .resolved)] ∧
      (handleResponseFrame
        (sendMessage (sendMessage initialPendingState 1000 0) 1000 1)
        .pass).callbacks = [] ∧
      (handleResponseFrame
        (sendMessage (sendMessage initialPendingState 1000 0) 1001 1)
        .pass).settlements = [(0, .resolved)] :=
  ⟨rfl, rfl, rfl⟩

/-! ## C4 — sequential handler execution -/

/-- C4, the code evaluated at the failing input: a `+RECORD` frame for a
topic with two registered handlers, each returning a pending promise.  In
the WebSocket client the unawaited IIFEs invoke handler `1` in the same
synchronous turn as handler `0` — before handler `0`'s asynchronous work
has settled (second conjunct) — while the gRPC stream callback awaits
each handler and is strictly sequential (third conjunct). -/
theorem c4_ws_handlers_interleaved :
    wsDispatchRecord ⟨true, true, true⟩
        [⟨0, false, .asyncResolve⟩, ⟨1, false, .asyncResolve⟩] =
      [.handlerInvoked 0, .handlerInvoked 1,
       .handlerSettled 0, .handlerSettled 1] ∧
    (wsDispatchRecord ⟨true, true, true⟩
        [⟨0, false, .asyncResolve⟩, ⟨1, false, .asyncResolve⟩]).indexOf
        (DispatchAction.handlerInvoked 1) <
      (wsDispatchRecord ⟨true, true, true⟩
        [⟨0, false, .asyncResolve⟩, ⟨1, false, .asyncResolve⟩]).indexOf
        (DispatchAction.handlerSettled 0) ∧
    grpcDispatchMessage false true true [⟨0, .asyncResolve⟩, ⟨1, .asyncResolve⟩] =
      [.handlerInvoked 0, .handlerSettled 0,
       .handlerInvoked 1, .handlerSettled 1] :=
  ⟨rfl, by decide, rfl⟩

/-! ## C5 — reconnection backoff -/

theorem handleClose_schedules (cfg : WsConnConfig) (s : WsConnState)
    (h1 : s.shouldReconnect = true) (h2 : s.pendingRequests = [])
    (hlt : s.reconnectAttempts < cfg.maxReconnectAttempts) :
    handleClose cfg s =
      (⟨false, false, s.reconnectAttempts + 1, s.shouldReconnect, []⟩,
        [.closeHandlersNotified,
         .reconnectScheduled (s.reconnectAttempts + 1)
           (cfg.reconnectInterval * (3 / 2 : ℚ) ^ s.reconnectAttempts)]) := by
  simp [handleClose, h1, h2, hlt]

theorem handleClose_givesUp (cfg : WsConnConfig) (s : WsConnState)
    (h2 : s.pendingRequests = [])
    (hge : cfg.maxReconnectAttempts ≤ s.reconnectAttempts) :
    handleClose cfg s =
      (⟨false, false, s.reconnectAttempts, s.shouldReconnect, []⟩,
        [.closeHandlersNotified, .giveUpLogged]) := by
  have hnlt : ¬ s.reconnectAttempts < cfg.maxReconnectAttempts :=
    Nat.not_lt.mpr hge
  simp [handleClose, h2, hnlt, hge]

theorem runCloses_log (cfg : WsConnConfig) :
    ∀ (n : Nat) (s : WsConnState), s.shouldReconnect = true →
      s.pendingRequests = [] →
      (runCloses cfg n s).2 =
        expectedBackoffLog cfg.reconnectInterval cfg.maxReconnectAttempts
          s.reconnectAttempts n := by
  intro n
  induction n with
  | zero => intro s h1 h2; rfl
  | succ n ih =>
    intro s h1 h2
    by_cases hlt : s.reconnectAttempts < cfg.maxReconnectAttempts
    · have hstep := handleClose_schedules cfg s h1 h2 hlt
      have htail :=
        ih ⟨false, false, s.reconnectAttempts + 1, s.shouldReconnect, []⟩ h1 rfl
      simp only [runCloses, hstep, htail, expectedBackoffLog, hlt, if_pos,
        List.cons_append, List.nil_append]
    · have hge := Nat.not_lt.mp hlt
      have hstep := handleClose_givesUp cfg s h2 hge
      have htail :=
        ih ⟨false, false, s.reconnectAttempts, s.shouldReconnect, []⟩ h1 rfl
      simp only [runCloses, hstep, htail, expectedBackoffLog, hlt, if_neg,
        not_false_iff, List.cons_append, List.nil_append]

theorem errorNotify_not_in_backoffLog (interval : ℚ) (maxA : Nat) :
    ∀ (n a : Nat),
      ConnAction.errorHandlersNotified ∉ expectedBackoffLog interval maxA a n := by
  intro n
  induction n with
  | zero => intro a; simp [expectedBackoffLog]
  | succ n ih =>
    intro a
    by_cases hlt : a < maxA <;> simp [expectedBackoffLog, hlt, ih]

/-- C5, counterexample to the claim as stated: with
`maxReconnectAttempts = 1` and `reconnectInterval = 5000`, two
consecutive non-explicit closes from a fresh state schedule attempt 1
and then give up — the give-up close emits only the close notification
and a console log, and no `error` event is ever surfaced to the
registered error handlers, where the claim requires a terminal error
event. -/
theorem c5_exhaustion_no_error_event :
    (runCloses ⟨5000, 1⟩ 2 ⟨false, false, 0, true, []⟩).2 =
      [.closeHandlersNotified, .reconnectScheduled 1 5000,
       .closeHandlersNotified, .giveUpLogged] ∧
    ConnAction.errorHandlersNotified ∉
      (runCloses ⟨5000, 1⟩ 2 ⟨false, false, 0, true, []⟩).2 := by
  have h : (runCloses ⟨5000, 1⟩ 2 ⟨false, false, 0, true, []⟩).2 =
      [ConnAction.closeHandlersNotified, .reconnectScheduled 1 5000,
       .closeHandlersNotified, .giveUpLogged] := by
    norm_num [runCloses, handleClose]
  refine ⟨h, ?_⟩
  rw [h]
  intro hmem
  simp at hmem

/-- C5 as amended: while `shouldReconnect` holds, the `n`-th consecutive
close schedules reconnect attempt `n` after exactly
`reconnectInterval * 1.5^(n-1)` — no cap is applied — until
`maxReconnectAttempts` attempts have been made; every later close only
logs the give-up and schedules nothing, and no terminal error event is
surfaced to the registered error handlers at any point; a successful
reopen resets the attempt counter to zero. -/
theorem c5_reconnect_backoff_amended (cfg : WsConnConfig) (s : WsConnState)
    (n : Nat) (h1 : s.shouldReconnect = true) (h2 : s.pendingRequests = []) :
    (runCloses cfg n s).2 =
      expectedBackoffLog cfg.reconnectInterval cfg.maxReconnectAttempts
        s.reconnectAttempts n ∧
    ConnAction.errorHandlersNotified ∉ (runCloses cfg n s).2 ∧
    (handleOpen s).reconnectAttempts = 0 := by
  have hlog := runCloses_log cfg n s h1 h2
  refine ⟨hlog, ?_, rfl⟩
  rw [hlog]
  exact errorNotify_not_in_backoffLog cfg.reconnectInterval
    cfg.maxReconnectAttempts n s.reconnectAttempts

/-- Witness for C5 as amended at the concrete configuration
`⟨5000, 1⟩`, a fresh state, and two closes. -/
theorem c5_reconnect_backoff_amended_witness :
    (⟨false, false, 0, true, []⟩ : WsConnState).shouldReconnect = true ∧
    ((runCloses ⟨5000, 1⟩ 2 ⟨false, false, 0, true, []⟩).2 =
        expectedBackoffLog 5000 1 0 2 ∧
      ConnAction.errorHandlersNotified ∉
        (runCloses ⟨5000, 1⟩ 2 ⟨false, false, 0, true, []⟩).2 ∧
      (handleOpen ⟨false, false, 0, true, []⟩).reconnectAttempts = 0) :=
  ⟨rfl, c5_reconnect_backoff_amended ⟨5000, 1⟩ ⟨false, false, 0, true, []⟩ 2
    rfl rfl⟩

/-! ## C6 — defer bounds -/

/-- C6, counterexample to the claim as stated: the gRPC client's
`#deferMessage` called with the out-of-range `delayMs = 999` performs no
local validation — it sends the `DeferMessage` RPC and resolves from the
engine's reply, where the claim requires a local `ValidationError`
before any command is sent. -/
theorem c6_grpc_defer_sends_without_validation :
    grpcDeferMessage 999 .pass = (.success, [.deferMessage 999]) := rfl

/-- C6 as amended: the WebSocket client's `#deferEvent` (on an
authenticated client) fails with `EnSyncValidationError` before sending
anything whenever `delayMs` is neither `0` nor in `[1000, 86400000]`, and
sends the `DEFER` command for in-range delays; the gRPC client's
`#deferMessage` performs no local validation and issues the
`DeferMessage` RPC for every `delayMs`. -/
theorem c6_defer_bounds_amended (delayMs : Int) (reply : EngineReply) :
    ((delayMs ≠ 0 ∧ (delayMs < 1000 ∨ delayMs > 86400000)) →
        wsDeferEvent true delayMs reply = (.validationError, [])) ∧
    ((delayMs = 0 ∨ (1000 ≤ delayMs ∧ delayMs ≤ 86400000)) →
        (wsDeferEvent true delayMs reply).2 = [.deferCmd delayMs]) ∧
    (grpcDeferMessage delayMs reply).2 = [.deferMessage delayMs] := by
  refine ⟨?_, ?_, ?_⟩
  · intro hv
    unfold wsDeferEvent
    rw [if_neg (by simp), if_pos (by omega)]
  · intro hv
    unfold wsDeferEvent
    rw [if_neg (by simp), if_neg (by omega)]
    cases reply <;> rfl
  · cases reply <;> rfl

/-- Witness for C6 as amended at `delayMs ∈ {999, 86400001, 0, 1000}`. -/
theorem c6_defer_bounds_amended_witness :
    wsDeferEvent true 999 .pass = (.validationError, []) ∧
    wsDeferEvent true 86400001 .pass = (.validationError, []) ∧
    (wsDeferEvent true 0 .pass).2 = [.deferCmd 0] ∧
    (wsDeferEvent true 1000 .pass).2 = [.deferCmd 1000] ∧
    (grpcDeferMessage 999 .pass).2 = [.deferMessage 999] :=
  ⟨(c6_defer_bounds_amended 999 .pass).1 (by omega),
   (c6_defer_bounds_amended 86400001 .pass).1 (by omega),
   (c6_defer_bounds_amended 0 .pass).2.1 (Or.inl rfl),
   (c6_defer_bounds_amended 1000 .pass).2.1 (Or.inr (by omega)),
   (c6_defer_bounds_amended 999 .pass).2.2⟩

/-! ## C8 — handler-set invariant -/

theorem objGet_objErase_self {κ ν : Type} [DecidableEq κ]
    (m : List (κ × ν)) (k : κ) :
    objGet (objErase m k) k = none := by
  induction m with
  | nil => rfl
  | cons kv rest ih =>
    by_cases hk : kv.1 = k <;> simp [objErase, hk, objGet, ih]

/-- C8, counterexample to the claim as stated: right after
`subscribe("orders")` succeeds the topic is registered with the remote
engine while its local handler set is empty, violating the claimed
invariant; and after `on(h)` followed by the returned removal function,
the local entry is gone but no `UNSUB` command was ever sent — the topic
remains registered with the engine, so removing the last handler does
not implicitly unsubscribe. -/
theorem c8_empty_handler_set_while_registered :
    ("orders" ∈ (wsSubscribe initialSubscriptionsState "orders").engineTopics ∧
      objGet (wsSubscribe initialSubscriptionsState "orders").subscriptions
        "orders" = some []) ∧
    ("orders" ∈ (wsRemoveHandler
        (wsOn (wsSubscribe initialSubscriptionsState "orders") "orders" 7)
        "orders" 7).engineTopics ∧
      objGet (wsRemoveHandler
        (wsOn (wsSubscribe initialSubscriptionsState "orders") "orders" 7)
        "orders" 7).subscriptions "orders" = none ∧
      WireCommand.unsub "orders" ∉ (wsRemoveHandler
        (wsOn (wsSubscribe initialSubscriptionsState "orders") "orders" 7)
        "orders" 7).sent) :=
  ⟨⟨by decide, by decide⟩, by decide, by decide, by decide⟩

/-- C8 as amended: a subscription's handler set may be empty while the
topic is registered with the remote engine — `subscribe` registers the
topic with an empty set before any handler is added; the removal
function returned by `on(handler)` never sends a command and never
changes the engine-side registration: removing the last handler deletes
only the local entry in the WebSocket client, and in the gRPC client
merely leaves the entry with the handler removed. -/
theorem c8_handler_removal_amended (s : WsSubscriptionsState) (n : String)
    (hid : Nat) (subs : List (String × GrpcSubscriptionEntry))
    (e : GrpcSubscriptionEntry)
    (hlast : objGet s.subscriptions n = some [hid])
    (he : objGet subs n = some e) :
    objGet (wsRemoveHandler s n hid).subscriptions n = none ∧
    (wsRemoveHandler s n hid).sent = s.sent ∧
    (wsRemoveHandler s n hid).engineTopics = s.engineTopics ∧
    objGet (wsSubscribe initialSubscriptionsState n).subscriptions n = some [] ∧
    n ∈ (wsSubscribe initialSubscriptionsState n).engineTopics ∧
    objGet (grpcRemoveHandler subs n hid) n =
      some { handlers := e.handlers.erase hid, autoAck := e.autoAck } := by
  refine ⟨?_, ?_, ?_, ?_, ?_, ?_⟩
  · simp [wsRemoveHandler, hlast, objGet_objErase_self]
  · simp [wsRemoveHandler, hlast]
  · simp [wsRemoveHandler, hlast]
  · simp [wsSubscribe, initialSubscriptionsState, objGet]
  · simp [wsSubscribe, initialSubscriptionsState]
  · simp [grpcRemoveHandler, he, objGet_objInsert_self]

/-- Witness for C8 as amended: a topic with `7` as its only local
handler and a gRPC subscription entry holding handlers `[3, 7]`. -/
theorem c8_handler_removal_amended_witness :
    objGet (wsOn (wsSubscribe initialSubscriptionsState "t") "t" 7).subscriptions
        "t" = some [7] ∧
    (objGet (wsRemoveHandler
        (wsOn (wsSubscribe initialSubscriptionsState "t") "t" 7) "t" 7).subscriptions
        "t" = none ∧
      (wsRemoveHandler (wsOn (wsSubscribe initialSubscriptionsState "t") "t" 7)
          "t" 7).sent =
        (wsOn (wsSubscribe initialSubscriptionsState "t") "t" 7).sent ∧
      (wsRemoveHandler (wsOn (wsSubscribe initialSubscriptionsState "t") "t" 7)
          "t" 7).engineTopics =
        (wsOn (wsSubscribe initialSubscriptionsState "t") "t" 7).engineTopics ∧
      objGet (wsSubscribe initialSubscriptionsState "t").subscriptions "t" =
        some [] ∧
      "t" ∈ (wsSubscribe initialSubscriptionsState "t").engineTopics ∧
      objGet (grpcRemoveHandler [("t", ⟨[3, 7], true⟩)] "t" 7) "t" =
        some { handlers := ([3, 7] : List Nat).erase 7, autoAck := true }) :=
  ⟨by decide,
   c8_handler_removal_amended
     (wsOn (wsSubscribe initialSubscriptionsState "t") "t" 7) "t" 7
     [("t", ⟨[3, 7], true⟩)] ⟨[3, 7], true⟩ (by decide) (by decide)⟩

/-! ## C9 — decryption-key precedence -/

/-- C9: for every inbound message the dispatcher selects exactly one
decryption key by the fixed precedence — the subscription's
`appSecretKey` if set, else the client's `appSecretKey`, else the
client's `clientHash` — and when none of the three is available the
message is dropped: `#processMessage` returns `null`, the stream `data`
callback invokes no handler and raises nothing, and the WebSocket
`#decryptPayload` likewise reports failure with the same precedence. -/
theorem c9_decryption_key_precedence (m : InboundMessageData)
    (k1 k2 k3 : EdSecretKey) (o2 o3 : Option EdSecretKey)
    (enc : DirectEnvelope) (autoAck : Bool) (handlers : List HandlerSpec) :
    processMessage m (some k1) o2 o3 = processMessageWithKey m k1 ∧
    processMessage m none (some k2) o3 = processMessageWithKey m k2 ∧
    processMessage m none none (some k3) = processMessageWithKey m k3 ∧
    processMessage m none none none = none ∧
    grpcStreamOnData m none none none autoAck handlers = [] ∧
    wsDecryptPayload enc (some k1) o2 o3 =
      wsDecryptPayload enc (some k1) none none ∧
    wsDecryptPayload enc none (some k2) o3 =
      wsDecryptPayload enc none (some k2) none ∧
    wsDecryptPayload enc none none none = none :=
  ⟨rfl, rfl, rfl, rfl, rfl, rfl, rfl, rfl⟩

/-! ## C10 — publish-time encryption selection -/

theorem perRecipientLoop_no_hybrid (P : String) :
    ∀ (rs : List EdPublicKey) (rng : Nat),
      ((encryptPerRecipientLoop P rs rng).1.any fun p => p.2.isHybrid) = false := by
  intro rs
  induction rs with
  | nil => intro rng; rfl
  | cons r rest ih =>
    intro rng
    simp only [encryptPerRecipientLoop, List.any_cons,
      EncryptedPayloadKind.isHybrid, Bool.false_or]
    exact ih _

/-- C10: in the gRPC `_publishInternal`, hybrid encryption is applied iff
the recipient list has length strictly greater than one and
`useHybridEncryption` is not `false`; in particular every
single-recipient publish uses the direct single-recipient scheme, even
with `useHybridEncryption` explicitly `true`. -/
theorem c10_hybrid_selection (recips : List EdPublicKey) (opt : Option Bool)
    (P : String) (rng : Nat) :
    (((publishInternalEncrypt recips opt P rng).any fun p => p.2.isHybrid) = true ↔
      opt ≠ some false ∧ recips.length > 1) ∧
    ∀ r : EdPublicKey,
      ((publishInternalEncrypt [r] (some true) P rng).any fun p => p.2.isHybrid) =
        false := by
  constructor
  · by_cases hc : opt ≠ some false ∧ recips.length > 1
    · unfold publishInternalEncrypt
      rw [if_pos hc]
      constructor
      · intro _; exact hc
      · intro _
        rcases recips with _ | ⟨r, rest⟩
        · rcases hc with ⟨_, hlen⟩; simp at hlen
        · simp [EncryptedPayloadKind.isHybrid]
    · unfold publishInternalEncrypt
      rw [if_neg hc, perRecipientLoop_no_hybrid P recips rng]
      simp [hc]
  · intro r
    have hc : ¬ ((some true : Option Bool) ≠ some false ∧
        ([r] : List EdPublicKey).length > 1) := by simp
    unfold publishInternalEncrypt
    rw [if_neg hc]
    exact perRecipientLoop_no_hybrid P [r] rng
